import Mathlib

/-!
Shallow embedding of gantt_chart.py: a log-file parser (parse_csv), the
data-access and metric-computation skeleton of the chart renderer
(generate_gantt), and the command-line entry point.  Python strings are
Lean String values; Python floats are modelled as exact rationals;
fallible Python operations (dict lookup, list indexing, int and float
conversion, division) are modelled in the Except String monad, where an
error value stands for an uncaught Python exception aborting the run.
-/

namespace Gantt

/-- The default whitespace characters of Python str.strip (ASCII fragment). -/
def isPySpace (c : Char) : Bool :=
  c = ' ' || c = '\t' || c = '\n' || c = '\r' || c = Char.ofNat 11 || c = Char.ofNat 12

def pyStripList (l : List Char) : List Char :=
  ((l.dropWhile isPySpace).reverse.dropWhile isPySpace).reverse

/-- Models Python str.strip with no argument. -/
def pyStrip (s : String) : String := String.mk (pyStripList s.toList)

/-- Split a character list at every occurrence of the separator character;
models Python str.split with a one-character separator. -/
def splitChar (sep : Char) : List Char → List (List Char)
  | [] => [[]]
  | c :: rest =>
    if c = sep then [] :: splitChar sep rest
    else
      match splitChar sep rest with
      | [] => [[c]]
      | h :: t => (c :: h) :: t

/-- Split at every non-overlapping occurrence of two consecutive newline
characters; models the Python blank-line split content.split of parse_csv
line 16. -/
def splitBlank : List Char → List (List Char)
  | [] => [[]]
  | '\n' :: '\n' :: rest => [] :: splitBlank rest
  | c :: rest =>
    match splitBlank rest with
    | [] => [[c]]
    | h :: t => (c :: h) :: t

def pySplitDoubleNL (s : String) : List String := (splitBlank s.toList).map String.mk

def pySplitNL (s : String) : List String := (splitChar '\n' s.toList).map String.mk

def pySplitComma (s : String) : List String := (splitChar ',' s.toList).map String.mk

def natOfDigits (l : List Char) : Nat := l.foldl (fun a c => a * 10 + (c.toNat - 48)) 0

def digitsInt (r : List Char) : Option Int :=
  if !r.isEmpty && r.all Char.isDigit then some ((natOfDigits r : Int)) else none

/-- Models Python int applied to a string: optional surrounding whitespace,
optional sign, then a nonempty run of decimal digits (digit-group
underscores are outside the model). -/
def pyInt (s : String) : Option Int :=
  match pyStripList s.toList with
  | '+' :: r => digitsInt r
  | '-' :: r => (digitsInt r).map Neg.neg
  | r => digitsInt r

def hexDigitVal (c : Char) : Option Nat :=
  if c.isDigit then some (c.toNat - 48)
  else if 'a' ≤ c ∧ c ≤ 'f' then some (c.toNat - 87)
  else if 'A' ≤ c ∧ c ≤ 'F' then some (c.toNat - 55)
  else none

def natOfHexDigits (l : List Char) : Nat :=
  l.foldl (fun a c => a * 16 + (hexDigitVal c).getD 0) 0

def dropHexMarker : List Char → List Char
  | '0' :: 'x' :: r => r
  | '0' :: 'X' :: r => r
  | l => l

def hexDigits (r : List Char) : Option Int :=
  if !r.isEmpty && r.all (fun c => (hexDigitVal c).isSome) then
    some ((natOfHexDigits r : Int))
  else none

/-- Models Python int applied to a string with base 16: optional whitespace
and sign, an optional 0x prefix, then a nonempty run of hex digits. -/
def pyIntHex (s : String) : Option Int :=
  match pyStripList s.toList with
  | '+' :: r => hexDigits (dropHexMarker r)
  | '-' :: r => (hexDigits (dropHexMarker r)).map Neg.neg
  | r => hexDigits (dropHexMarker r)

def decFrag (l : List Char) : Option ℚ :=
  let ip := l.takeWhile Char.isDigit
  let rest := l.dropWhile Char.isDigit
  match rest with
  | [] => if ip.isEmpty then none else some ((natOfDigits ip : ℚ))
  | '.' :: fp =>
    if fp.all Char.isDigit && !(ip.isEmpty && fp.isEmpty) then
      some ((natOfDigits ip : ℚ) + (natOfDigits fp : ℚ) / (10 : ℚ) ^ fp.length)
    else none
  | _ => none

/-- Models Python float applied to a string, on the sign and decimal-literal
fragment the log files use (exponent, infinity and nan spellings are outside
the model); values are exact rationals. -/
def pyFloat (s : String) : Option ℚ :=
  match pyStripList s.toList with
  | '+' :: r => decFrag r
  | '-' :: r => (decFrag r).map Neg.neg
  | r => decFrag r

/-- A Python str-to-str dict in insertion order, as built by parse_csv. -/
abbrev Record := List (String × String)

/-- Python dict assignment d at k set to v: update in place when the key
exists, otherwise append at the end. -/
def dictInsert : Record → String → String → Record
  | [], k, v => [(k, v)]
  | (k0, v0) :: r, k, v =>
    if k0 = k then (k0, v) :: r else (k0, v0) :: dictInsert r k v

/-- Python dict lookup; keys are unique by construction of dictInsert. -/
def dictFind : Record → String → Option String
  | [], _ => none
  | (k0, v0) :: r, k => if k0 = k then some v0 else dictFind r k

/-- One parsed row (parse_csv lines 21-22, 27-30, 37-40): zip of header and
cells, both whitespace-trimmed, a later duplicate header overwriting the
earlier value; the zip drops cells beyond the header count and leaves
headers beyond the cell count unassigned. -/
def buildDict (keys vals : List String) : Record :=
  (keys.zip vals).foldl (fun d kv => dictInsert d (pyStrip kv.1) (pyStrip kv.2)) []

/-- The pc_samples dict: thread id to sample-record list, insertion order. -/
abbrev PcDict := List (Int × List Record)

def pcFind : PcDict → Int → Option (List Record)
  | [], _ => none
  | (t0, l) :: r, t => if t0 = t then some l else pcFind r t

/-- Parse_csv lines 42-44: create the list on first occurrence of the thread
id, then append the sample at the end of that list. -/
def addSample : PcDict → Int → Record → PcDict
  | [], tid, s => [(tid, [s])]
  | (t0, l) :: r, tid, s =>
    if t0 = tid then (t0, l ++ [s]) :: r else (t0, l) :: addSample r tid s

/-- The parsed representation of one run log (parse_csv line 13). -/
structure RunLog where
  meta : Record
  threads : List Record
  pc_samples : PcDict
  deriving Inhabited, DecidableEq

def ofOption {α : Type} (o : Option α) (msg : String) : Except String α :=
  match o with
  | some a => Except.ok a
  | none => Except.error msg

/-- Python list indexing, raising IndexError out of range. -/
def listGetE {α : Type} (l : List α) (i : Nat) : Except String α :=
  ofOption (l.get? i) "IndexError"

/-- Python dict subscript access, raising KeyError on a missing key. -/
def getField (r : Record) (k : String) : Except String String :=
  ofOption (dictFind r k) "KeyError"

/-- Fetch a field and convert it with float, as in wall_ms or start_ms uses. -/
def fieldFloat (r : Record) (k : String) : Except String ℚ := do
  let v ← getField r k
  ofOption (pyFloat v) "ValueError float"

/-- Fetch a field and convert it with int, as in thread_id or pixels uses. -/
def fieldInt (r : Record) (k : String) : Except String Int := do
  let v ← getField r k
  ofOption (pyInt v) "ValueError int"

/-- Fetch a field and convert it with int base 16, as in pc_addr uses. -/
def fieldHex (r : Record) (k : String) : Except String Int := do
  let v ← getField r k
  ofOption (pyIntHex v) "ValueError int base 16"

/-- Parse_csv lines 36-44: fold the section-3 rows into the pc_samples dict;
a missing thread_id field is a fatal KeyError and an unparsable one a fatal
ValueError. -/
def buildSamples (header : List String) : List String → PcDict → Except String PcDict
  | [], m => Except.ok m
  | line :: rest, m => do
    let sample := buildDict header (pySplitComma line)
    let tv ← getField sample "thread_id"
    let tid ← ofOption (pyInt tv) "ValueError int"
    buildSamples header rest (addSample m tid sample)

/-- Shallow embedding of parse_csv (lines 12-45); content stands for the
full text of the file at filepath. -/
def parse_csv (content : String) : Except String RunLog := do
  let sections := pySplitDoubleNL (pyStrip content)
  let sec0 ← listGetE sections 0
  let lines0 := pySplitNL (pyStrip sec0)
  let keyLine ← listGetE lines0 0
  let valLine ← listGetE lines0 1
  let meta := buildDict (pySplitComma keyLine) (pySplitComma valLine)
  let sec1 ← listGetE sections 1
  let lines1 := pySplitNL (pyStrip sec1)
  let headerLine ← listGetE lines1 0
  let header := pySplitComma headerLine
  let threads := (lines1.drop 1).map (fun line => buildDict header (pySplitComma line))
  let pc ←
    if 2 < sections.length then do
      let sec2 ← listGetE sections 2
      let lines2 := pySplitNL (pyStrip sec2)
      let h2 ← listGetE lines2 0
      buildSamples (pySplitComma h2) (lines2.drop 1) []
    else Except.ok []
  Except.ok ⟨meta, threads, pc⟩

/-- Generate_gantt line 68: speedup = wall_seq / wall_par if wall_par > 0
else 0. -/
def speedup (wall_seq wall_par : ℚ) : ℚ :=
  if wall_par > 0 then wall_seq / wall_par else 0

/-- Generate_gantt line 69: efficiency = speedup / nt * 100, an unguarded
division that raises ZeroDivisionError when nt = 0. -/
def efficiency (sp : ℚ) (nt : Int) : Except String ℚ :=
  if nt = 0 then Except.error "ZeroDivisionError" else Except.ok (sp / (nt : ℚ) * 100)

/-- Generate_gantt lines 437-438 and 481: throughput = the guarded division
total_bytes / 1024 / 1024 over wall / 1000, and 0 when wall is not positive. -/
def throughputOf (total_bytes : Int) (wall : ℚ) : ℚ :=
  if wall > 0 then ((total_bytes : ℚ) / 1024 / 1024) / (wall / 1000) else 0

/-- Generate_gantt line 265: gap = times at j minus times at j - 1. -/
def csGap (times : List ℚ) (j : Nat) : ℚ := times.getD j 0 - times.getD (j - 1) 0

/-- Generate_gantt line 266: avg = (times at -1 minus times at 0) divided by
len times when len times > 1, else the immediate gap. -/
def csAvg (times : List ℚ) (j : Nat) : ℚ :=
  if 1 < times.length then ((times.getLast?).getD 0 - times.headD 0) / (times.length : ℚ)
  else csGap times j

/-- Generate_gantt line 267: the condition gap > avg * 4 and avg > 0 under
which the CS annotation of lines 269-272 is drawn. -/
def csDraw (times : List ℚ) (j : Nat) : Bool :=
  decide (csGap times j > csAvg times j * 4) && decide (csAvg times j > 0)

/-- The indices j of the loop at lines 264-272 at which a CS context-switch
marker is drawn between samples j - 1 and j. -/
def csIndices (times : List ℚ) : List Nat :=
  (List.range times.length).filter (fun j => decide (1 ≤ j) && csDraw times j)

/-- Modelled from the spec wording of the context-switch rule, for the
refinement proof: the thread average inter-sample gap is last timestamp
minus first timestamp divided by the sample count, falling back to the
immediate gap when there are fewer than 2 samples. -/
def csAvgSpec (times : List ℚ) (j : Nat) : ℚ :=
  if times.length < 2 then times.getD j 0 - times.getD (j - 1) 0
  else ((times.getLast?).getD 0 - times.headD 0) / (times.length : ℚ)

/-- Python modulo (sign follows the divisor), raising ZeroDivisionError on a
zero divisor; used for core = tid % nt at line 251. -/
def pyMod (a b : Int) : Except String Int :=
  if b = 0 then Except.error "ZeroDivisionError" else Except.ok (Int.fmod a b)

/-- Error-propagating map, modelling a Python list comprehension such as
times = float of timestamp_ms for each sample. -/
def mapE {α β : Type} (f : α → Except String β) : List α → Except String (List β)
  | [] => Except.ok []
  | a :: t => do
    let b ← f a
    let r ← mapE f t
    Except.ok (b :: r)

def samplesTimes (samples : List Record) : Except String (List ℚ) :=
  mapE (fun s => fieldFloat s "timestamp_ms") samples

def samplesPcs (samples : List Record) : Except String (List Int) :=
  mapE (fun s => fieldHex s "pc_addr") samples

def samplesPixelsAt (samples : List Record) : Except String (List Int) :=
  mapE (fun s => fieldInt s "pixels_at") samples

/-- Python min over a list, raising ValueError when the list is empty
(line 307). -/
def listMinE : List Int → Except String Int
  | [] => Except.error "ValueError min"
  | h :: t => Except.ok (t.foldl min h)

/-- Line 416 and 462: pct = p / total_px * 100 if total_px > 0 else 0. -/
def pctOf (total_px : Int) (p : Int) : ℚ :=
  if total_px > 0 then (p : ℚ) / (total_px : ℚ) * 100 else 0

/-- The derived values of generate_gantt lines 63-69. -/
structure Metrics where
  nt : Int
  wall_seq : ℚ
  wall_par : ℚ
  cpu_seq : ℚ
  cpu_par : ℚ
  speedup : ℚ
  efficiency : ℚ
  deriving Inhabited, DecidableEq

def metaField (log : RunLog) (k : String) : Except String String :=
  ofOption (dictFind log.meta k) "KeyError"

def metaFloat (log : RunLog) (k : String) : Except String ℚ := do
  let v ← metaField log k
  ofOption (pyFloat v) "ValueError float"

/-- Generate_gantt lines 63-69. -/
def computeMetrics (seq par : RunLog) : Except String Metrics := do
  let ntv ← metaField par "num_threads"
  let nt ← ofOption (pyInt ntv) "ValueError int"
  let wall_seq ← metaFloat seq "wall_ms"
  let wall_par ← metaFloat par "wall_ms"
  let cpu_seq ← metaFloat seq "total_cpu_ms"
  let cpu_par ← metaFloat par "total_cpu_ms"
  let sp := speedup wall_seq wall_par
  let eff ← efficiency sp nt
  Except.ok ⟨nt, wall_seq, wall_par, cpu_seq, cpu_par, sp, eff⟩

/-- The data read while drawing row 1 (lines 105-192): the sequential pid
and the first sequential thread record's cpu times (lines 113, 117-118,
both read unconditionally), and the per-thread bar data of the parallel
panel (lines 141-158). -/
structure Row1Data where
  pid : String
  cpu_u : ℚ
  cpu_s : ℚ
  bars : List (Int × ℚ × ℚ × ℚ)
  deriving Inhabited, DecidableEq

def row1 (seq par : RunLog) : Except String Row1Data := do
  let pid ← metaField seq "pid"
  let t0 ← listGetE seq.threads 0
  let cpu_u ← fieldFloat t0 "cpu_user_ms"
  let cpu_s ← fieldFloat t0 "cpu_sys_ms"
  let bars ← mapE (fun t => do
      let tid ← fieldInt t "thread_id"
      let start ← fieldFloat t "start_ms"
      let e ← fieldFloat t "end_ms"
      let cu ← fieldFloat t "cpu_user_ms"
      Except.ok (tid, start, e, cu)) par.threads
  Except.ok ⟨pid, cpu_u, cpu_s, bars⟩

/-- Panel 2A (lines 204-214): drawn only when thread 0 has PC samples; the
value carried out is the sample timestamp list, none when the panel is
skipped. -/
def panel2aSeq (seq : RunLog) : Except String (Option (List ℚ)) :=
  match pcFind seq.pc_samples 0 with
  | none => Except.ok none
  | some samples => do
    let times ← samplesTimes samples
    Except.ok (some times)

/-- Panel 2B (lines 246-272): per parallel thread its id, its core
tid % nt, and the indices where a CS marker is drawn (empty when the thread
has no PC samples). -/
def panel2bPar (par : RunLog) (nt : Int) : Except String (List (Int × Int × List Nat)) :=
  mapE (fun t => do
      let tid ← fieldInt t "thread_id"
      let _ ← fieldFloat t "start_ms"
      let _ ← fieldFloat t "end_ms"
      let core ← pyMod tid nt
      match pcFind par.pc_samples tid with
      | none => Except.ok (tid, core, ([] : List Nat))
      | some samples => do
        let times ← samplesTimes samples
        Except.ok (tid, core, csIndices times)) par.threads

/-- The data of panel 3A (lines 303-335), when drawn. -/
structure Panel3aData where
  times : List ℚ
  pcs_raw : List Int
  pc_base : Int
  tid : String
  stack_addr : String
  deriving Inhabited, DecidableEq

/-- Panel 3A (lines 303-335): drawn only when thread 0 has PC samples;
reads the timestamps, the hex pc addresses, their minimum (ValueError on an
empty sample list), and the tid and stack_addr fields of the first
sequential thread record. -/
def panel3aSeq (seq : RunLog) : Except String (Option Panel3aData) :=
  match pcFind seq.pc_samples 0 with
  | none => Except.ok none
  | some samples => do
    let times ← samplesTimes samples
    let pcs ← samplesPcs samples
    let pc_base ← listMinE pcs
    let t0 ← listGetE seq.threads 0
    let tidS ← getField t0 "tid"
    let stack ← getField t0 "stack_addr"
    Except.ok (some ⟨times, pcs, pc_base, tidS, stack⟩)

/-- Panel 3B (lines 346-399): the shared pc base over all sampled threads
(0 when no thread has samples), then per parallel thread with samples the
plotted series and the tid label. -/
def panel3bPar (par : RunLog) : Except String (Int × List (Int × Option (List ℚ × List Int))) := do
  let bases ← mapE (fun e => samplesPcs e.2) par.pc_samples
  let mins := bases.filterMap (fun pcs => match pcs with
    | [] => none
    | h :: t => some (t.foldl min h))
  let all_pc_base := match mins with
    | [] => 0
    | h :: t => t.foldl min h
  let series ← mapE (fun t => do
      let tid ← fieldInt t "thread_id"
      match pcFind par.pc_samples tid with
      | none => Except.ok (tid, none)
      | some samples => do
        let times ← samplesTimes samples
        let pcs ← samplesPcs samples
        let _ ← getField t "tid"
        let _ ← listGetE times 0
        Except.ok (tid, some (times, pcs.map (fun p => p - all_pc_base)))) par.threads
  Except.ok (all_pc_base, series)

/-- Panel 4A (lines 405-434): drawn only when thread 0 has PC samples;
reads the first sequential thread record's pixels total and the cumulative
pixels_at of each sample, producing the percent-complete series. -/
def panel4aSeq (seq : RunLog) : Except String (Option (List ℚ × List ℚ)) :=
  match pcFind seq.pc_samples 0 with
  | none => Except.ok none
  | some samples => do
    let times ← samplesTimes samples
    let t0 ← listGetE seq.threads 0
    let total_px ← fieldInt t0 "pixels"
    let pixels ← samplesPixelsAt samples
    Except.ok (some (times, pixels.map (pctOf total_px)))

/-- Line 437: total_bytes = int of the first sequential thread record's
pixels field, times 3; read unconditionally. -/
def totalBytesSeq (seq : RunLog) : Except String Int := do
  let t0 ← listGetE seq.threads 0
  let pv ← getField t0 "pixels"
  let px ← ofOption (pyInt pv) "ValueError int"
  Except.ok (px * 3)

/-- Panel 4B (lines 447-479): per parallel thread its id and pixels total
(both read unconditionally), and its percent-complete series when it has PC
samples. -/
def panel4bPar (par : RunLog) : Except String (List (Int × Option (List ℚ × List ℚ))) :=
  mapE (fun t => do
      let tid ← fieldInt t "thread_id"
      let total_px ← fieldInt t "pixels"
      match pcFind par.pc_samples tid with
      | none => Except.ok (tid, none)
      | some samples => do
        let times ← samplesTimes samples
        let pixels ← samplesPixelsAt samples
        Except.ok (tid, some (times, pixels.map (pctOf total_px)))) par.threads

/-- Everything generate_gantt computes from the two logs; an ok result
stands for the run that reaches line 552 and writes the output image. -/
structure RenderResult where
  metrics : Metrics
  row1 : Row1Data
  panel2a : Option (List ℚ)
  panel2b : List (Int × Int × List Nat)
  panel3a : Option Panel3aData
  panel3b : Int × List (Int × Option (List ℚ × List Int))
  panel4a : Option (List ℚ × List ℚ)
  total_bytes : Int
  throughput_seq : ℚ
  panel4b : List (Int × Option (List ℚ × List ℚ))
  throughput_par : ℚ
  deriving Inhabited, DecidableEq

/-- Shallow embedding of generate_gantt (lines 48-555), keeping the data
accesses, numeric conversions and derived-metric computations in source
order; the drawing calls themselves are the trusted plotting library and
carry no failure of their own.  An error models an uncaught exception
aborting the process before the image is written. -/
def generate_gantt (seq par : RunLog) : Except String RenderResult := do
  let m ← computeMetrics seq par
  let r1 ← row1 seq par
  let p2a ← panel2aSeq seq
  let p2b ← panel2bPar par m.nt
  let p3a ← panel3aSeq seq
  let p3b ← panel3bPar par
  let p4a ← panel4aSeq seq
  let tb ← totalBytesSeq seq
  let thS := throughputOf tb m.wall_seq
  let p4b ← panel4bPar par
  let thP := throughputOf tb m.wall_par
  Except.ok ⟨m, r1, p2a, p2b, p3a, p3b, p4a, tb, thS, p4b, thP⟩

/-- The observable outcome of the entry point at lines 558-562. -/
inductive MainAction where
  | usageExit (msg : String) (code : Nat)
  | render (seqPath parPath outPath : String)
  deriving DecidableEq

/-- Shallow embedding of the entry point: argv includes the program name at
position 0; with fewer than 4 entries the usage line is printed and the
process exits with code 1 before any file is opened, otherwise
generate_gantt runs on the three named paths. -/
def pyMain (argv : List String) : MainAction :=
  if argv.length < 4 then
    MainAction.usageExit
      ("Uso: " ++ argv.headD "" ++ " <csv_secuencial> <csv_paralelo> <output.png>") 1
  else
    MainAction.render (argv.getD 1 "") (argv.getD 2 "") (argv.getD 3 "")

/-- The trimmed key-value pairs a row is built from, in zip order. -/
def stripPairs (keys vals : List String) : List (String × String) :=
  (keys.zip vals).map (fun kv => (pyStrip kv.1, pyStrip kv.2))

def foldIns (d : Record) (ps : List (String × String)) : Record :=
  ps.foldl (fun d kv => dictInsert d kv.1 kv.2) d

/-- The record a single section-3 row parses to. -/
def rowRecord (header : List String) (line : String) : Record :=
  buildDict header (pySplitComma line)

/-- The parsed thread id of a section-3 row: the thread_id field fed to
int, none when the field is missing or not an integer literal. -/
def rowTid (header : List String) (line : String) : Option Int :=
  (dictFind (rowRecord header line) "thread_id").bind pyInt

/-- The section-3 rows belonging to one thread id, in file order. -/
def rowsFor (header : List String) (rows : List String) (tid : Int) : List Record :=
  (rows.map (rowRecord header)).filter
    (fun r => decide ((dictFind r "thread_id").bind pyInt = some tid))

/-- A minimal valid sequential log used to exercise the renderer. -/
def seqEx : RunLog :=
  { meta := [("pid", "1"), ("wall_ms", "100"), ("total_cpu_ms", "90")],
    threads := [[("thread_id", "0"), ("tid", "11"), ("cpu_user_ms", "80"),
                 ("cpu_sys_ms", "10"), ("pixels", "1000"), ("stack_addr", "0x1")]],
    pc_samples := [] }

/-- A minimal valid parallel log used to exercise the renderer. -/
def parEx : RunLog :=
  { meta := [("pid", "2"), ("num_threads", "2"), ("wall_ms", "50"), ("total_cpu_ms", "95")],
    threads := [[("thread_id", "0"), ("tid", "21"), ("start_ms", "0"), ("end_ms", "48"),
                 ("cpu_user_ms", "47"), ("pixels", "500")],
                [("thread_id", "1"), ("tid", "22"), ("start_ms", "0"), ("end_ms", "50"),
                 ("cpu_user_ms", "49"), ("pixels", "500")]],
    pc_samples := [] }

/-- The render result of the two example logs. -/
def rEx : RenderResult := (generate_gantt seqEx parEx).toOption.getD default

theorem bind_ok {α β : Type} {x : Except String α} {f : α → Except String β} {b : β}
    (h : (x >>= f) = Except.ok b) : ∃ a, x = Except.ok a ∧ f a = Except.ok b := by
  cases x with
  | error e => simp [Bind.bind, Except.bind] at h
  | ok a => exact ⟨a, rfl, by simpa [Bind.bind, Except.bind] using h⟩

theorem ofOption_ok {α : Type} {o : Option α} {msg : String} {a : α}
    (h : ofOption o msg = Except.ok a) : o = some a := by
  cases o <;> simp_all [ofOption]

theorem ofOption_of_some {α : Type} {o : Option α} {a : α} (msg : String)
    (h : o = some a) : ofOption o msg = Except.ok a := by
  subst h; rfl

theorem ofOption_error {α : Type} {o : Option α} {msg : String}
    (h : o = none) : ofOption o msg = Except.error msg := by
  subst h; rfl

/-- Claim C1: the efficiency of generate_gantt line 69 equals
speedup / threadCount * 100 for every positive thread count, and for a zero
thread count the computation is an unguarded division by zero that raises,
unlike the guarded speedup division of line 68. -/
theorem C1_efficiency_unguarded (ws wp : ℚ) (nt : Int) :
    (0 < nt → efficiency (speedup ws wp) nt = Except.ok (speedup ws wp / (nt : ℚ) * 100))
    ∧ (nt = 0 → efficiency (speedup ws wp) nt = Except.error "ZeroDivisionError") := by
  constructor
  · intro h
    rw [efficiency, if_neg (by omega)]
  · intro h
    rw [efficiency, if_pos h]

theorem C1_efficiency_unguarded_witness :
    efficiency (speedup 4 2) 2 = Except.ok 100
    ∧ efficiency (speedup 4 2) 0 = Except.error "ZeroDivisionError" := by
  refine ⟨((C1_efficiency_unguarded 4 2 2).1 (by norm_num)).trans (by norm_num [speedup]),
    (C1_efficiency_unguarded 4 2 0).2 rfl⟩

/-- Claim C3: speedup (line 68) equals wall_seq / wall_par when wall_par is
positive, and 0 when wall_par is zero or negative; the zero case is guarded
and raises no division fault. -/
theorem C3_speedup_guard (ws wp : ℚ) :
    (0 < wp → speedup ws wp = ws / wp) ∧ (wp ≤ 0 → speedup ws wp = 0) := by
  constructor
  · intro h
    rw [speedup, if_pos h]
  · intro h
    rw [speedup, if_neg (by exact not_lt.mpr h)]

theorem C3_speedup_guard_witness :
    speedup 100 25 = 4 ∧ speedup 100 0 = 0 := by
  refine ⟨((C3_speedup_guard 100 25).1 (by norm_num)).trans (by norm_num),
    (C3_speedup_guard 100 0).2 le_rfl⟩

/-- Claim C2: in panel 2B a CS context-switch marker is drawn between
consecutive samples j - 1 and j exactly when the gap exceeds 4 times the
average inter-sample gap and that average is positive, the average being
last timestamp minus first timestamp divided by the sample count (the
fewer-than-2-samples fallback of csAvgSpec cannot fire here since the loop
needs two samples to produce an index j). -/
theorem C2_cs_marker (times : List ℚ) (j : Nat) (h1 : 1 ≤ j) (h2 : j < times.length) :
    j ∈ csIndices times ↔
      (csGap times j > 4 * csAvgSpec times j ∧ csAvgSpec times j > 0) := by
  have hlen : 1 < times.length := lt_of_le_of_lt h1 h2
  have havg : csAvg times j = csAvgSpec times j := by
    rw [csAvg, csAvgSpec, if_pos hlen, if_neg (by omega)]
  simp [csIndices, List.mem_filter, List.mem_range, csDraw, h1, h2, havg, mul_comm]

theorem C2_cs_marker_witness :
    9 ∈ csIndices [0, 1, 2, 3, 4, 5, 6, 7, 8, 15] :=
  (C2_cs_marker [0, 1, 2, 3, 4, 5, 6, 7, 8, 15] 9 (by decide) (by decide)).mpr
    (by constructor <;> norm_num [csGap, csAvgSpec, List.getD])

/-- Claim C9: with fewer than 3 positional arguments the entry point prints
the usage line naming the program and the three expected arguments and
exits with status 1, touching no file; with 3 or more it proceeds to parse
both logs and render.  Position 0 of argv is the program name. -/
theorem C9_cli_usage (prog : String) (args : List String) :
    (args.length < 3 →
      pyMain (prog :: args) =
        MainAction.usageExit
          ("Uso: " ++ prog ++ " <csv_secuencial> <csv_paralelo> <output.png>") 1)
    ∧ (3 ≤ args.length →
      pyMain (prog :: args) =
        MainAction.render (args.getD 0 "") (args.getD 1 "") (args.getD 2 "")) := by
  constructor
  · intro h
    rw [pyMain, if_pos (by simp only [List.length_cons]; omega)]
    rfl
  · intro h
    rw [pyMain, if_neg (by simp only [List.length_cons]; omega)]
    rfl

theorem C9_cli_usage_witness :
    pyMain ["gantt_chart.py", "a.csv", "b.csv"] =
      MainAction.usageExit
        ("Uso: gantt_chart.py <csv_secuencial> <csv_paralelo> <output.png>") 1
    ∧ pyMain ["gantt_chart.py", "a.csv", "b.csv", "out.png"] =
      MainAction.render "a.csv" "b.csv" "out.png" :=
  ⟨(C9_cli_usage "gantt_chart.py" ["a.csv", "b.csv"]).1 (by decide),
   (C9_cli_usage "gantt_chart.py" ["a.csv", "b.csv", "out.png"]).2 (by decide)⟩

theorem buildDict_eq_foldIns (keys vals : List String) :
    buildDict keys vals = foldIns [] (stripPairs keys vals) := by
  simp [buildDict, stripPairs, foldIns, List.foldl_map]

theorem dictFind_insert_self (d : Record) (k v : String) :
    dictFind (dictInsert d k v) k = some v := by
  induction d with
  | nil => simp [dictInsert, dictFind]
  | cons p r ih =>
    obtain ⟨k0, v0⟩ := p
    by_cases h : k0 = k <;> simp [dictInsert, dictFind, h, ih]

theorem dictFind_insert_ne (d : Record) (k v k' : String) (h : k' ≠ k) :
    dictFind (dictInsert d k v) k' = dictFind d k' := by
  induction d with
  | nil => simp [dictInsert, dictFind, Ne.symm h]
  | cons p r ih =>
    obtain ⟨k0, v0⟩ := p
    by_cases h0 : k0 = k
    · subst h0
      simp [dictInsert, dictFind, Ne.symm h]
    · by_cases h1 : k0 = k' <;> simp [dictInsert, dictFind, h0, h1, h, ih]

theorem dictFind_foldIns_not_mem (ps : List (String × String)) (d : Record) (k : String)
    (h : k ∉ ps.map Prod.fst) : dictFind (foldIns d ps) k = dictFind d k := by
  induction ps generalizing d with
  | nil => rfl
  | cons p t ih =>
    simp only [List.map_cons, List.mem_cons, not_or] at h
    rw [foldIns, List.foldl_cons, ← foldIns, ih _ h.2, dictFind_insert_ne _ _ _ _ h.1]

theorem dictFind_foldIns_mem (ps : List (String × String)) (d : Record) (k v : String)
    (hnd : (ps.map Prod.fst).Nodup) (hm : (k, v) ∈ ps) :
    dictFind (foldIns d ps) k = some v := by
  induction ps generalizing d with
  | nil => cases hm
  | cons p t ih =>
    simp only [List.map_cons, List.nodup_cons] at hnd
    rcases List.mem_cons.mp hm with h | h
    · subst h
      rw [foldIns, List.foldl_cons, ← foldIns,
        dictFind_foldIns_not_mem _ _ _ hnd.1, dictFind_insert_self]
    · exact ih _ hnd.2 h

theorem map_fst_stripPairs (keys vals : List String) :
    (stripPairs keys vals).map Prod.fst = (keys.map pyStrip).take vals.length := by
  induction keys generalizing vals with
  | nil => simp [stripPairs]
  | cons a t ih =>
    cases vals with
    | nil => simp [stripPairs]
    | cons v vs => simpa [stripPairs] using ih vs

theorem mem_stripPairs (keys vals : List String) (i : Nat)
    (hi : i < keys.length) (hv : i < vals.length) :
    (pyStrip (keys.getD i ""), pyStrip (vals.getD i "")) ∈ stripPairs keys vals := by
  induction keys generalizing vals i with
  | nil => simp at hi
  | cons a t ih =>
    cases vals with
    | nil => simp at hv
    | cons b vs =>
      cases i with
      | zero => simp [stripPairs]
      | succ i =>
        simp only [List.getD_cons_succ]
        have := ih vs i (by simpa using hi) (by simpa using hv)
        simp only [stripPairs, List.zip_cons_cons, List.map_cons, List.mem_cons]
        right
        simpa [stripPairs] using this

theorem getD_map_pyStrip (keys : List String) (j : Nat) (hj : j < keys.length) :
    (keys.map pyStrip).getD j "" = pyStrip (keys.getD j "") := by
  rw [List.getD_eq_getElem _ _ (by simpa using hj), List.getD_eq_getElem _ _ hj,
    List.getElem_map]

theorem not_mem_take_of_nodup (l : List String) (n j : Nat)
    (hnd : l.Nodup) (hnj : n ≤ j) (hj : j < l.length) : l.getD j "" ∉ l.take n := by
  induction l generalizing n j with
  | nil => simp at hj
  | cons a t ih =>
    cases n with
    | zero => simp
    | succ n =>
      cases j with
      | zero => omega
      | succ j =>
        simp only [List.take_succ_cons, List.getD_cons_succ, List.mem_cons, not_or]
        rw [List.nodup_cons] at hnd
        have hjt : j < t.length := by simpa using hj
        refine ⟨?_, ih n j hnd.2 (by omega) hjt⟩
        intro heq
        have hm : t.getD j "" ∈ t := by
          rw [List.getD_eq_getElem _ _ hjt]
          exact List.getElem_mem _
        exact hnd.1 (heq ▸ hm)

theorem zip_take_right {α β : Type} (l1 : List α) (l2 : List β) :
    l1.zip l2 = l1.zip (l2.take l1.length) := by
  induction l1 generalizing l2 with
  | nil => simp
  | cons a t ih =>
    cases l2 with
    | nil => simp
    | cons b bs =>
      simp only [List.zip_cons_cons, List.length_cons, List.take_succ_cons]
      rw [← ih bs]

/-- Inversion of a successful parse: the meta dict comes from the trimmed
positional zip of the first section's first two comma-split lines, and the
thread records from the second section's header zipped against each later
line, in file order; pc_samples comes from folding the third section's rows
when that section exists and is empty otherwise. -/
theorem parse_csv_ok_inv {content : String} {log : RunLog}
    (h : parse_csv content = Except.ok log) :
    ∃ sec0 kl vl sec1 hl,
      (pySplitDoubleNL (pyStrip content)).get? 0 = some sec0
      ∧ (pySplitNL (pyStrip sec0)).get? 0 = some kl
      ∧ (pySplitNL (pyStrip sec0)).get? 1 = some vl
      ∧ (pySplitDoubleNL (pyStrip content)).get? 1 = some sec1
      ∧ (pySplitNL (pyStrip sec1)).get? 0 = some hl
      ∧ log.meta = buildDict (pySplitComma kl) (pySplitComma vl)
      ∧ log.threads = ((pySplitNL (pyStrip sec1)).drop 1).map
          (fun line => buildDict (pySplitComma hl) (pySplitComma line))
      ∧ (2 < (pySplitDoubleNL (pyStrip content)).length →
          ∃ sec2 h2,
            (pySplitDoubleNL (pyStrip content)).get? 2 = some sec2
            ∧ (pySplitNL (pyStrip sec2)).get? 0 = some h2
            ∧ buildSamples (pySplitComma h2) ((pySplitNL (pyStrip sec2)).drop 1) []
                = Except.ok log.pc_samples)
      ∧ (¬ 2 < (pySplitDoubleNL (pyStrip content)).length → log.pc_samples = []) := by
  simp only [parse_csv] at h
  obtain ⟨sec0, h0, h⟩ := bind_ok h
  obtain ⟨kl, hkl, h⟩ := bind_ok h
  obtain ⟨vl, hvl, h⟩ := bind_ok h
  obtain ⟨sec1, h1, h⟩ := bind_ok h
  obtain ⟨hl, hhl, h⟩ := bind_ok h
  by_cases hlen : 2 < (pySplitDoubleNL (pyStrip content)).length
  · rw [if_pos hlen] at h
    obtain ⟨sec2, h2, h⟩ := bind_ok h
    obtain ⟨hd2, hh2, h⟩ := bind_ok h
    obtain ⟨pc, hpc, h⟩ := bind_ok h
    obtain rfl : RunLog.mk _ _ _ = log := Except.ok.inj h
    exact ⟨sec0, kl, vl, sec1, hl, ofOption_ok h0, ofOption_ok hkl, ofOption_ok hvl,
      ofOption_ok h1, ofOption_ok hhl, rfl, rfl,
      fun _ => ⟨sec2, hd2, ofOption_ok h2, ofOption_ok hh2, hpc⟩,
      fun hn => absurd hlen hn⟩
  · rw [if_neg hlen] at h
    obtain ⟨pc, hpc, h⟩ := bind_ok h
    obtain rfl : ([] : PcDict) = pc := Except.ok.inj hpc
    obtain rfl : RunLog.mk _ _ _ = log := Except.ok.inj h
    exact ⟨sec0, kl, vl, sec1, hl, ofOption_ok h0, ofOption_ok hkl, ofOption_ok hvl,
      ofOption_ok h1, ofOption_ok hhl, rfl, rfl,
      fun hc => absurd hc hlen, fun _ => rfl⟩

/-- Claim C8: the first section is parsed by splitting the header and value
lines on commas and mapping each whitespace-trimmed key to the positionally
corresponding whitespace-trimmed value, as strings with no numeric
conversion; the spec example evaluates exactly. -/
theorem C8_meta_parsing :
    (∀ (keys vals : List String) (i : Nat), (keys.map pyStrip).Nodup →
        i < keys.length → i < vals.length →
        dictFind (buildDict keys vals) (pyStrip (keys.getD i ""))
          = some (pyStrip (vals.getD i "")))
    ∧ (∀ content log, parse_csv content = Except.ok log → ∃ kl vl,
        (pySplitNL (pyStrip ((pySplitDoubleNL (pyStrip content)).getD 0 ""))).get? 0 = some kl
        ∧ (pySplitNL (pyStrip ((pySplitDoubleNL (pyStrip content)).getD 0 ""))).get? 1 = some vl
        ∧ log.meta = buildDict (pySplitComma kl) (pySplitComma vl))
    ∧ (∃ log,
        parse_csv "pid,wall_ms,total_cpu_ms\n123,45.5,40.2\n\nthread_id\n0" = Except.ok log
        ∧ log.meta = [("pid", "123"), ("wall_ms", "45.5"), ("total_cpu_ms", "40.2")]) := by
  refine ⟨?_, ?_, ?_⟩
  · intro keys vals i hnd hi hv
    rw [buildDict_eq_foldIns]
    apply dictFind_foldIns_mem _ _ _ _ _ (mem_stripPairs keys vals i hi hv)
    rw [map_fst_stripPairs]
    exact List.Nodup.sublist (List.take_sublist _ _) hnd
  · intro content log h
    obtain ⟨sec0, kl, vl, _, _, h0, hkl, hvl, _, _, hmeta, _⟩ := parse_csv_ok_inv h
    have hd : (pySplitDoubleNL (pyStrip content)).getD 0 "" = sec0 := by
      simp [List.getD, ← List.get?_eq_getElem?, h0]
    rw [hd]
    exact ⟨kl, vl, hkl, hvl, hmeta⟩
  · exact ⟨_, rfl, rfl⟩

theorem C8_meta_parsing_witness :
    dictFind (buildDict ["pid", "wall_ms"] ["123", "45.5"])
        (pyStrip (["pid", "wall_ms"].getD 0 "")) = some (pyStrip (["123", "45.5"].getD 0 "")) :=
  C8_meta_parsing.1 ["pid", "wall_ms"] ["123", "45.5"] 0 (by decide) (by decide) (by decide)

/-- Claim C4: a section-2 row is parsed by positional zip of trimmed header
names with trimmed cell values, records appended in file order; cells beyond
the header count are dropped (the zip ignores them) and headers beyond the
cell count are omitted from the record; neither case is an error. -/
theorem C4_positional_rows :
    (∀ (keys vals : List String), buildDict keys vals = buildDict keys (vals.take keys.length))
    ∧ (∀ (keys vals : List String) (j : Nat), (keys.map pyStrip).Nodup →
        vals.length ≤ j → j < keys.length →
        dictFind (buildDict keys vals) (pyStrip (keys.getD j "")) = none)
    ∧ (∀ content log, parse_csv content = Except.ok log → ∃ sec1 hl,
        (pySplitDoubleNL (pyStrip content)).get? 1 = some sec1
        ∧ (pySplitNL (pyStrip sec1)).get? 0 = some hl
        ∧ log.threads = ((pySplitNL (pyStrip sec1)).drop 1).map
            (fun line => buildDict (pySplitComma hl) (pySplitComma line)))
    ∧ (∃ log,
        parse_csv "pid\n7\n\nthread_id,tid,start_ms,end_ms\n0,1001,0.0,10.0\n1,1002,0.0,12.0"
          = Except.ok log
        ∧ dictFind (log.threads.getD 0 []) "thread_id" = some "0"
        ∧ dictFind (log.threads.getD 1 []) "end_ms" = some "12.0") := by
  refine ⟨?_, ?_, ?_, ?_⟩
  · intro keys vals
    rw [buildDict, buildDict, ← zip_take_right]
  · intro keys vals j hnd hvj hjk
    rw [buildDict_eq_foldIns]
    have hnm : pyStrip (keys.getD j "") ∉ (stripPairs keys vals).map Prod.fst := by
      rw [map_fst_stripPairs, ← getD_map_pyStrip _ _ hjk]
      exact not_mem_take_of_nodup _ _ _ hnd hvj (by simpa using hjk)
    rw [dictFind_foldIns_not_mem _ _ _ hnm]
    rfl
  · intro content log h
    obtain ⟨_, _, _, sec1, hl, _, _, _, h1, hhl, _, hthreads, _⟩ := parse_csv_ok_inv h
    exact ⟨sec1, hl, h1, hhl, hthreads⟩
  · exact ⟨_, rfl, by decide, by decide⟩

theorem C4_positional_rows_witness :
    buildDict ["a", "b"] ["1", "2", "3"] = buildDict ["a", "b"] (["1", "2", "3"].take 2)
    ∧ dictFind (buildDict ["a", "b", "c"] ["1"]) (pyStrip (["a", "b", "c"].getD 2 "")) = none :=
  ⟨C4_positional_rows.1 ["a", "b"] ["1", "2", "3"],
   C4_positional_rows.2.1 ["a", "b", "c"] ["1"] 2 (by decide) (by decide) (by decide)⟩

theorem pcFind_addSample_self (m : PcDict) (tid : Int) (s : Record) :
    pcFind (addSample m tid s) tid = some ((pcFind m tid).getD [] ++ [s]) := by
  induction m with
  | nil => simp [addSample, pcFind]
  | cons p r ih =>
    obtain ⟨t0, l⟩ := p
    by_cases h : t0 = tid <;> simp [addSample, pcFind, h, ih]

theorem pcFind_addSample_ne (m : PcDict) (tid : Int) (s : Record) (t : Int) (h : t ≠ tid) :
    pcFind (addSample m tid s) t = pcFind m t := by
  induction m with
  | nil => simp [addSample, pcFind, Ne.symm h]
  | cons p r ih =>
    obtain ⟨t0, l⟩ := p
    by_cases h0 : t0 = tid
    · subst h0
      simp [addSample, pcFind, Ne.symm h]
    · by_cases h1 : t0 = t <;> simp [addSample, pcFind, h0, h1, h, ih]

theorem buildSamples_cons_some (header : List String) (line : String) (rest : List String)
    (m : PcDict) (tid0 : Int) (h : rowTid header line = some tid0) :
    buildSamples header (line :: rest) m
      = buildSamples header rest (addSample m tid0 (rowRecord header line)) := by
  rw [rowTid] at h
  cases hf : dictFind (rowRecord header line) "thread_id" with
  | none => rw [hf] at h; simp at h
  | some v =>
    rw [hf] at h
    simp only [Option.some_bind] at h
    rw [rowRecord] at hf
    simp [buildSamples, rowRecord, getField, ofOption, hf, h, Bind.bind, Except.bind]

theorem buildSamples_cons_none (header : List String) (line : String) (rest : List String)
    (m : PcDict) (h : rowTid header line = none) :
    ∃ e, buildSamples header (line :: rest) m = Except.error e := by
  rw [rowTid] at h
  cases hf : dictFind (rowRecord header line) "thread_id" with
  | none =>
    rw [rowRecord] at hf
    exact ⟨"KeyError",
      by simp [buildSamples, rowRecord, getField, ofOption, hf, Bind.bind, Except.bind]⟩
  | some v =>
    rw [hf] at h
    simp only [Option.some_bind] at h
    rw [rowRecord] at hf
    exact ⟨"ValueError int",
      by simp [buildSamples, rowRecord, getField, ofOption, hf, h, Bind.bind, Except.bind]⟩

theorem buildSamples_error_of_bad (header : List String) (rows : List String) :
    ∀ m0 : PcDict, (∃ line ∈ rows, rowTid header line = none) →
      ∃ e, buildSamples header rows m0 = Except.error e := by
  induction rows with
  | nil =>
    intro m0 h
    obtain ⟨l, hl, _⟩ := h
    cases hl
  | cons line rest ih =>
    intro m0 h
    obtain ⟨l, hl, hbad⟩ := h
    cases ht : rowTid header line with
    | none => exact buildSamples_cons_none _ _ _ _ ht
    | some tid0 =>
      rcases List.mem_cons.mp hl with rfl | hmem
      · rw [ht] at hbad
        cases hbad
      · rw [buildSamples_cons_some _ _ _ _ _ ht]
        exact ih _ ⟨l, hmem, hbad⟩

theorem buildSamples_ok_of_good (header : List String) (rows : List String) :
    ∀ m0 : PcDict, (∀ line ∈ rows, rowTid header line ≠ none) →
      ∃ m, buildSamples header rows m0 = Except.ok m := by
  induction rows with
  | nil => exact fun m0 _ => ⟨m0, rfl⟩
  | cons line rest ih =>
    intro m0 h
    cases ht : rowTid header line with
    | none => exact absurd ht (h line (List.mem_cons_self _ _))
    | some tid0 =>
      rw [buildSamples_cons_some _ _ _ _ _ ht]
      exact ih _ (fun l hl => h l (List.mem_cons_of_mem _ hl))

theorem buildSamples_find (header : List String) (rows : List String) :
    ∀ (m0 m : PcDict), buildSamples header rows m0 = Except.ok m → ∀ tid : Int,
      pcFind m tid =
        match pcFind m0 tid with
        | some l => some (l ++ rowsFor header rows tid)
        | none =>
          if (rowsFor header rows tid).isEmpty then none
          else some (rowsFor header rows tid) := by
  induction rows with
  | nil =>
    intro m0 m h tid
    obtain rfl : m0 = m := Except.ok.inj h
    simp only [rowsFor, List.map_nil, List.filter_nil]
    cases pcFind m0 tid <;> simp
  | cons line rest ih =>
    intro m0 m h tid
    cases ht : rowTid header line with
    | none =>
      obtain ⟨e, he⟩ := buildSamples_cons_none header line rest m0 ht
      rw [he] at h
      cases h
    | some tid0 =>
      rw [buildSamples_cons_some _ _ _ _ _ ht] at h
      have hrec := ih _ _ h tid
      have hfilter : (dictFind (rowRecord header line) "thread_id").bind pyInt = some tid0 := ht
      have hrows : rowsFor header (line :: rest) tid
          = if tid0 = tid then rowRecord header line :: rowsFor header rest tid
            else rowsFor header rest tid := by
        simp only [rowsFor, List.map_cons, List.filter_cons, hfilter]
        by_cases he : tid0 = tid
        · subst he
          simp
        · simp [he]
      by_cases he : tid0 = tid
      · subst he
        rw [pcFind_addSample_self] at hrec
        rw [hrows, if_pos rfl]
        cases hm0 : pcFind m0 tid0 with
        | some l =>
          rw [hm0] at hrec
          rw [hrec]
          simp
        | none =>
          rw [hm0] at hrec
          rw [hrec]
          simp
      · rw [pcFind_addSample_ne _ _ _ _ (Ne.symm he)] at hrec
        rw [hrows, if_neg he]
        exact hrec

/-- Claim C5: section-3 rows are grouped into pc_samples keyed by the
integer value of each row's thread_id field, creating a thread's list on
first occurrence and appending later rows of that thread in file order, so
interleaved rows of distinct ids end up in separate per-thread sequences
each preserving row order; a thread_id that does not parse as an integer
(or is missing) is a fatal error, and only then. -/
theorem C5_sample_grouping :
    (∀ (header : List String) (rows : List String) (m0 : PcDict),
        (∃ line ∈ rows, rowTid header line = none) →
        ∃ e, buildSamples header rows m0 = Except.error e)
    ∧ (∀ (header : List String) (rows : List String) (m0 : PcDict),
        (∀ line ∈ rows, rowTid header line ≠ none) →
        ∃ m, buildSamples header rows m0 = Except.ok m)
    ∧ (∀ (header : List String) (rows : List String) (m : PcDict) (tid : Int),
        buildSamples header rows [] = Except.ok m →
        pcFind m tid = if (rowsFor header rows tid).isEmpty then none
                       else some (rowsFor header rows tid))
    ∧ (∀ content log, parse_csv content = Except.ok log →
        2 < (pySplitDoubleNL (pyStrip content)).length →
        ∃ sec2 h2, (pySplitDoubleNL (pyStrip content)).get? 2 = some sec2
          ∧ (pySplitNL (pyStrip sec2)).get? 0 = some h2
          ∧ ∀ tid, pcFind log.pc_samples tid =
              (if (rowsFor (pySplitComma h2) ((pySplitNL (pyStrip sec2)).drop 1) tid).isEmpty
               then none
               else some (rowsFor (pySplitComma h2) ((pySplitNL (pyStrip sec2)).drop 1) tid))) := by
  have hgrp : ∀ (header : List String) (rows : List String) (m : PcDict) (tid : Int),
      buildSamples header rows [] = Except.ok m →
      pcFind m tid = if (rowsFor header rows tid).isEmpty then none
                     else some (rowsFor header rows tid) := by
    intro header rows m tid h
    have := buildSamples_find header rows [] m h tid
    simpa [pcFind] using this
  refine ⟨buildSamples_error_of_bad, buildSamples_ok_of_good, hgrp, ?_⟩
  intro content log h hlen
  obtain ⟨_, _, _, _, _, _, _, _, _, _, _, _, hpc, _⟩ := parse_csv_ok_inv h
  obtain ⟨sec2, h2, hg2, hh2, hbuild⟩ := hpc hlen
  exact ⟨sec2, h2, hg2, hh2, fun tid => hgrp _ _ _ tid hbuild⟩

theorem C5_sample_grouping_witness :
    (pcFind ((buildSamples ["thread_id", "timestamp_ms"] ["0,1", "1,2", "0,3"] []).toOption.getD []) 0
      = if (rowsFor ["thread_id", "timestamp_ms"] ["0,1", "1,2", "0,3"] 0).isEmpty then none
        else some (rowsFor ["thread_id", "timestamp_ms"] ["0,1", "1,2", "0,3"] 0))
    ∧ pcFind ((buildSamples ["thread_id", "timestamp_ms"] ["0,1", "1,2", "0,3"] []).toOption.getD []) 0
      = some [[("thread_id", "0"), ("timestamp_ms", "1")], [("thread_id", "0"), ("timestamp_ms", "3")]]
    ∧ ∃ e, buildSamples ["thread_id"] ["x"] [] = Except.error e :=
  ⟨C5_sample_grouping.2.2.1 ["thread_id", "timestamp_ms"] ["0,1", "1,2", "0,3"] _ 0 (by rfl),
   by decide,
   C5_sample_grouping.1 ["thread_id"] ["x"] [] ⟨"x", by decide, by decide⟩⟩

theorem splitChar_ne_nil (sep : Char) (l : List Char) : splitChar sep l ≠ [] := by
  induction l with
  | nil => simp [splitChar]
  | cons c rest ih =>
    rw [splitChar]
    by_cases h : c = sep
    · simp [h]
    · simp only [if_neg h]
      cases hs : splitChar sep rest <;> simp

theorem pySplitNL_ne_nil (s : String) : pySplitNL s ≠ [] := by
  rw [pySplitNL]
  simp [splitChar_ne_nil]

/-- Claim C6: a log file whose content splits into exactly two blank-line
sections (no third section), with at least the two required lines in the
first section, parses successfully into a RunLog with an empty pc_samples
mapping, and each of the three PC-sample-dependent sequential sub-panels
(2A, 3A, 4A) is skipped without faulting. -/
theorem C6_missing_third_section (content : String)
    (h2 : (pySplitDoubleNL (pyStrip content)).length = 2)
    (hl : 2 ≤ (pySplitNL (pyStrip ((pySplitDoubleNL (pyStrip content)).getD 0 ""))).length) :
    ∃ log, parse_csv content = Except.ok log ∧ log.pc_samples = []
      ∧ panel2aSeq log = Except.ok none
      ∧ panel3aSeq log = Except.ok none
      ∧ panel4aSeq log = Except.ok none := by
  obtain ⟨s0, s1, hsec⟩ := List.length_eq_two.mp h2
  rw [hsec] at hl
  have hl0 : 2 ≤ (pySplitNL (pyStrip s0)).length := by simpa using hl
  rcases hL0 : pySplitNL (pyStrip s0) with _ | ⟨ka, tl⟩
  · rw [hL0] at hl0
    simp at hl0
  rcases tl with _ | ⟨kb, rest⟩
  · rw [hL0] at hl0
    simp at hl0
  rcases hL1 : pySplitNL (pyStrip s1) with _ | ⟨hh, t1⟩
  · exact absurd hL1 (pySplitNL_ne_nil _)
  have hparse : parse_csv content = Except.ok
      ⟨buildDict (pySplitComma ka) (pySplitComma kb),
       t1.map (fun line => buildDict (pySplitComma hh) (pySplitComma line)), []⟩ := by
    simp [parse_csv, hsec, hL0, hL1, listGetE, ofOption, Bind.bind, Except.bind]
  exact ⟨_, hparse, rfl, rfl, rfl, rfl⟩

theorem C6_missing_third_section_witness :
    ∃ log, parse_csv "pid,wall_ms\n1,100\n\nthread_id,tid\n0,5" = Except.ok log
      ∧ log.pc_samples = []
      ∧ panel2aSeq log = Except.ok none
      ∧ panel3aSeq log = Except.ok none
      ∧ panel4aSeq log = Except.ok none :=
  C6_missing_third_section "pid,wall_ms\n1,100\n\nthread_id,tid\n0,5" (by decide) (by decide)

theorem generate_gantt_ok_inv {seq par : RunLog} {r : RenderResult}
    (h : generate_gantt seq par = Except.ok r) :
    ∃ m r1 p2a p2b p3a p3b p4a tb p4b,
      computeMetrics seq par = Except.ok m
      ∧ row1 seq par = Except.ok r1
      ∧ panel2aSeq seq = Except.ok p2a
      ∧ panel2bPar par m.nt = Except.ok p2b
      ∧ panel3aSeq seq = Except.ok p3a
      ∧ panel3bPar par = Except.ok p3b
      ∧ panel4aSeq seq = Except.ok p4a
      ∧ totalBytesSeq seq = Except.ok tb
      ∧ panel4bPar par = Except.ok p4b
      ∧ r = ⟨m, r1, p2a, p2b, p3a, p3b, p4a, tb, throughputOf tb m.wall_seq, p4b,
             throughputOf tb m.wall_par⟩ := by
  simp only [generate_gantt] at h
  obtain ⟨m, hm, h⟩ := bind_ok h
  obtain ⟨r1, hr1, h⟩ := bind_ok h
  obtain ⟨p2a, hp2a, h⟩ := bind_ok h
  obtain ⟨p2b, hp2b, h⟩ := bind_ok h
  obtain ⟨p3a, hp3a, h⟩ := bind_ok h
  obtain ⟨p3b, hp3b, h⟩ := bind_ok h
  obtain ⟨p4a, hp4a, h⟩ := bind_ok h
  obtain ⟨tb, htb, h⟩ := bind_ok h
  obtain ⟨p4b, hp4b, h⟩ := bind_ok h
  exact ⟨m, r1, p2a, p2b, p3a, p3b, p4a, tb, p4b, hm, hr1, hp2a, hp2b, hp3a, hp3b,
    hp4a, htb, hp4b, (Except.ok.inj h).symm⟩

theorem row1_ok_inv {seq par : RunLog} {d : Row1Data} (h : row1 seq par = Except.ok d) :
    ∃ t0, seq.threads.get? 0 = some t0
      ∧ fieldFloat t0 "cpu_user_ms" = Except.ok d.cpu_u
      ∧ fieldFloat t0 "cpu_sys_ms" = Except.ok d.cpu_s := by
  simp only [row1] at h
  obtain ⟨pid, hpid, h⟩ := bind_ok h
  obtain ⟨t0, ht0, h⟩ := bind_ok h
  obtain ⟨cu, hcu, h⟩ := bind_ok h
  obtain ⟨cs, hcs, h⟩ := bind_ok h
  obtain ⟨bars, hbars, h⟩ := bind_ok h
  obtain rfl : Row1Data.mk _ _ _ _ = d := Except.ok.inj h
  exact ⟨t0, ofOption_ok ht0, hcu, hcs⟩

theorem totalBytesSeq_ok_inv {seq : RunLog} {tb : Int}
    (h : totalBytesSeq seq = Except.ok tb) :
    ∃ t0 v px, seq.threads.get? 0 = some t0 ∧ dictFind t0 "pixels" = some v
      ∧ pyInt v = some px ∧ tb = px * 3 := by
  simp only [totalBytesSeq] at h
  obtain ⟨t0, ht0, h⟩ := bind_ok h
  obtain ⟨v, hv, h⟩ := bind_ok h
  obtain ⟨px, hpx, h⟩ := bind_ok h
  exact ⟨t0, v, px, ofOption_ok ht0, ofOption_ok hv, ofOption_ok hpx,
    (Except.ok.inj h).symm⟩

theorem fieldFloat_ok_inv {r : Record} {k : String} {q : ℚ}
    (h : fieldFloat r k = Except.ok q) :
    ∃ v, dictFind r k = some v ∧ pyFloat v = some q := by
  simp only [fieldFloat] at h
  obtain ⟨v, hv, h⟩ := bind_ok h
  exact ⟨v, ofOption_ok hv, ofOption_ok h⟩

/-- Claim C7: generate_gantt computes total_bytes once, as the sequential
log's first thread record's pixels value times 3 (line 437), and both
throughputs from that same total_bytes: total_bytes / 1048576 megabytes
over wall / 1000 seconds, with result 0 when the respective wall time is 0
(lines 438 and 481); the source writes the division as / 1024 / 1024,
equal to / 1048576. -/
theorem C7_throughput (seq par : RunLog) (r : RenderResult)
    (h : generate_gantt seq par = Except.ok r) :
    (∃ t0 v px, seq.threads.get? 0 = some t0 ∧ dictFind t0 "pixels" = some v
      ∧ pyInt v = some px ∧ r.total_bytes = px * 3)
    ∧ (0 < r.metrics.wall_seq →
        r.throughput_seq = ((r.total_bytes : ℚ) / 1048576) / (r.metrics.wall_seq / 1000))
    ∧ (r.metrics.wall_seq = 0 → r.throughput_seq = 0)
    ∧ (0 < r.metrics.wall_par →
        r.throughput_par = ((r.total_bytes : ℚ) / 1048576) / (r.metrics.wall_par / 1000))
    ∧ (r.metrics.wall_par = 0 → r.throughput_par = 0) := by
  obtain ⟨m, r1, p2a, p2b, p3a, p3b, p4a, tb, p4b, hm, hr1, _, _, _, _, _, htb, _, hr⟩ :=
    generate_gantt_ok_inv h
  subst hr
  obtain ⟨t0, v, px, ht0, hv, hpx, htb3⟩ := totalBytesSeq_ok_inv htb
  refine ⟨⟨t0, v, px, ht0, hv, hpx, htb3⟩, ?_, ?_, ?_, ?_⟩
  · intro hw
    show throughputOf tb m.wall_seq = _
    rw [throughputOf, if_pos hw]
    congr 1
    ring
  · intro hw
    show throughputOf tb m.wall_seq = 0
    rw [throughputOf, if_neg (by rw [hw]; exact lt_irrefl 0)]
  · intro hw
    show throughputOf tb m.wall_par = _
    rw [throughputOf, if_pos hw]
    congr 1
    ring
  · intro hw
    show throughputOf tb m.wall_par = 0
    rw [throughputOf, if_neg (by rw [hw]; exact lt_irrefl 0)]

theorem C7_throughput_witness :
    ∃ t0 v px, seqEx.threads.get? 0 = some t0 ∧ dictFind t0 "pixels" = some v
      ∧ pyInt v = some px ∧ rEx.total_bytes = px * 3 :=
  (C7_throughput seqEx parEx rEx (by rfl)).1

/-- Claim C10: the renderer dereferences the first sequential thread record
unconditionally, for cpu_user_ms and cpu_sys_ms at lines 117-118 and for
pixels at line 437, even when that log has no PC samples; with an empty
threads list, or a first record missing one of those fields or holding a
non-numeric value there, generate_gantt aborts with a fatal error and never
reaches the image write (the ok result). -/
theorem C10_unconditional_thread0 (seq par : RunLog)
    (h : seq.threads = []
      ∨ ∃ t0, seq.threads.get? 0 = some t0
          ∧ (dictFind t0 "cpu_user_ms" = none
            ∨ (∃ v, dictFind t0 "cpu_user_ms" = some v ∧ pyFloat v = none)
            ∨ dictFind t0 "cpu_sys_ms" = none
            ∨ (∃ v, dictFind t0 "cpu_sys_ms" = some v ∧ pyFloat v = none)
            ∨ dictFind t0 "pixels" = none
            ∨ (∃ v, dictFind t0 "pixels" = some v ∧ pyInt v = none))) :
    ∃ e, generate_gantt seq par = Except.error e := by
  cases hg : generate_gantt seq par with
  | error e => exact ⟨e, rfl⟩
  | ok r =>
    exfalso
    obtain ⟨m, r1, p2a, p2b, p3a, p3b, p4a, tb, p4b, hm, hr1, _, _, _, _, _, htb, _, _⟩ :=
      generate_gantt_ok_inv hg
    obtain ⟨t0, ht0, hcu, hcs⟩ := row1_ok_inv hr1
    obtain ⟨t0b, v, px, ht0b, hv, hpx, _⟩ := totalBytesSeq_ok_inv htb
    have hbb : t0b = t0 := by
      rw [ht0] at ht0b
      exact (Option.some.inj ht0b).symm
    rw [hbb] at hv
    rcases h with hnil | ⟨t0c, ht0c, hbad⟩
    · rw [hnil] at ht0
      simp at ht0
    · have hcc : t0c = t0 := by
        rw [ht0] at ht0c
        exact (Option.some.inj ht0c).symm
      rw [hcc] at hbad
      obtain ⟨vu, hvu, hpu⟩ := fieldFloat_ok_inv hcu
      obtain ⟨vs, hvs, hps⟩ := fieldFloat_ok_inv hcs
      rcases hbad with h1 | ⟨v1, hv1, hp1⟩ | h2 | ⟨v2, hv2, hp2⟩ | h3 | ⟨v3, hv3, hp3⟩
      · rw [h1] at hvu
        cases hvu
      · rw [hv1] at hvu
        obtain rfl : v1 = vu := Option.some.inj hvu
        rw [hpu] at hp1
        cases hp1
      · rw [h2] at hvs
        cases hvs
      · rw [hv2] at hvs
        obtain rfl : v2 = vs := Option.some.inj hvs
        rw [hps] at hp2
        cases hp2
      · rw [h3] at hv
        cases hv
      · rw [hv3] at hv
        obtain rfl : v3 = v := Option.some.inj hv
        rw [hpx] at hp3
        cases hp3

theorem C10_unconditional_thread0_witness :
    ∃ e, generate_gantt ⟨[("num_threads", "2")], [], []⟩ ⟨[("num_threads", "2")], [], []⟩
      = Except.error e :=
  C10_unconditional_thread0 _ _ (Or.inl rfl)

end Gantt
